/-
Verification of the availability and scheduling core of the Meeting-Scheduler
repository (`services/smartCalendarService.js` and the AI-insights service).

Timestamps are modelled as integers (minutes since an arbitrary epoch); all
arithmetic in the source is integral at this granularity.  Mongo documents of
the `Meeting` collection are modelled by the `Meeting` structure below; the
aggregation `$match` stage is modelled together with JavaScript object-literal
semantics (later duplicate keys overwrite earlier ones), because the source
builds the `$match` object with the key `$or` written twice.
-/
import Mathlib

namespace MeetingScheduler

/-- A document of the `meetings` collection, restricted to the fields read by
the availability pipeline: `_id`, `title`, `startTime`, `endTime`, `priority`,
`type`, `status`, `organizer`, `participants.user`.  User ids are `Nat`. -/
structure Meeting where
  mid : Nat
  title : String
  startTime : Int
  endTime : Int
  priority : String
  mtype : String
  status : String
  organizer : Nat
  participants : List Nat
deriving Repr, DecidableEq

/-- The three-branch time condition of the `$match` stage of
`checkAvailability` (smartCalendarService.js lines 32-45), applied to a query
window `[s, e)` and a stored meeting `[ms, me)`:
`(ms <= s && me > s) || (ms < e && me >= e) || (ms >= s && me <= e)`. -/
def matchTimeOverlap (s e ms me : Int) : Bool :=
  (decide (ms ≤ s) && decide (me > s)) ||
  (decide (ms < e) && decide (me ≥ e)) ||
  (decide (ms ≥ s) && decide (me ≤ e))

/-- One value position of the `$match` object literal. -/
inductive FilterCond where
  | orParticipants (ps : List Nat)
  | orTime (s e : Int)
  | statusIn (ss : List String)
  | idNe (i : Nat)
deriving Repr, DecidableEq

/-- JavaScript object-literal key assignment: assigning to an existing key
overwrites its value in place, otherwise the key is appended. -/
def jsSetKey (obj : List (String × FilterCond)) (k : String) (v : FilterCond) :
    List (String × FilterCond) :=
  if obj.any (fun p => p.1 == k) then
    obj.map (fun p => if p.1 == k then (k, v) else p)
  else obj ++ [(k, v)]

/-- Evaluation of a JavaScript object literal: the textual key/value pairs are
assigned left to right, so a duplicated key keeps only the last value. -/
def jsObject (entries : List (String × FilterCond)) : List (String × FilterCond) :=
  entries.foldl (fun acc p => jsSetKey acc p.1 p.2) []

/-- The `$match` object of `checkAvailability` (smartCalendarService.js lines
27-48) as written in the source: the key `$or` appears twice (participant
membership first, time overlap second), then `status`, then conditionally
`_id: { $ne: excludeMeetingId }` via the spread. -/
def checkAvailabilityMatchObject (participants : List Nat) (s e : Int)
    (excludeMeetingId : Option Nat) : List (String × FilterCond) :=
  jsObject ([("$or", FilterCond.orParticipants participants),
             ("$or", FilterCond.orTime s e),
             ("status", FilterCond.statusIn ["scheduled", "in_progress"])] ++
    (match excludeMeetingId with
     | some i => [("_id", FilterCond.idNe i)]
     | none => []))

/-- The `$match` object of `detectConflicts` of the AI-insights service
(lines 328-348): key `$or` again appears twice, participants being
`[organizer, ...participants]`, with no exclusion key. -/
def detectConflictsMatchObject (organizer : Nat) (participants : List Nat)
    (s e : Int) : List (String × FilterCond) :=
  jsObject [("$or", FilterCond.orParticipants (organizer :: participants)),
            ("$or", FilterCond.orTime s e),
            ("status", FilterCond.statusIn ["scheduled", "in_progress"])]

/-- MongoDB semantics of one key of the match object. -/
def condHolds (m : Meeting) : FilterCond → Bool
  | FilterCond.orParticipants ps =>
      ps.contains m.organizer || m.participants.any (fun u => ps.contains u)
  | FilterCond.orTime s e => matchTimeOverlap s e m.startTime m.endTime
  | FilterCond.statusIn ss => ss.contains m.status
  | FilterCond.idNe i => decide (m.mid ≠ i)

/-- A document matches the object iff every key's condition holds. -/
def matchesObject (obj : List (String × FilterCond)) (m : Meeting) : Bool :=
  obj.all (fun p => condHolds m p.2)

/-- The meetings kept by the `$match` stage of `checkAvailability`, over a
database modelled as a list of meetings. -/
def matchedMeetings (participants : List Nat) (db : List Meeting) (s e : Int)
    (excl : Option Nat) : List Meeting :=
  db.filter (matchesObject (checkAvailabilityMatchObject participants s e excl))

/-- After `$unwind` of the participant lookup and `$group` by participant, the
conflicts collected for user `u` are the matched meetings having `u` among
`participants.user`. -/
def userConflicts (participants : List Nat) (db : List Meeting) (s e : Int)
    (excl : Option Nat) (u : Nat) : List Meeting :=
  (matchedMeetings participants db s e excl).filter
    (fun m => m.participants.contains u)

/-- The fields `$push`-ed into the per-user `conflicts` array by the `$group`
stage: meetingId, title, startTime, endTime, priority, type. -/
structure ConflictInfo where
  meetingId : Nat
  title : String
  startTime : Int
  endTime : Int
  priority : String
  mtype : String
deriving Repr, DecidableEq

def conflictInfoOf (m : Meeting) : ConflictInfo :=
  ⟨m.mid, m.title, m.startTime, m.endTime, m.priority, m.mtype⟩

/-- One element of the `participants` array of the result: the aggregation
entry when the user has matched conflicts, and the literal JavaScript default
`{ conflicts: [], conflictCount: 0, highPriorityConflicts: 0,
availability: 'available' }` when the user is absent from the aggregation
output; the two cases coincide with the single expression below, because a
user is absent from the `$group` output exactly when their conflict list is
empty. -/
structure AvailabilityEntry where
  userId : Nat
  conflicts : List ConflictInfo
  conflictCount : Nat
  highPriorityConflicts : Nat
  availability : String
deriving Repr, DecidableEq

/-- Per-user availability record: `conflictCount` is `$sum: 1`,
`highPriorityConflicts` is `$sum` of `$cond [$eq [$priority, high], 1, 0]`,
and `availability` is the nested `$cond` of the `$project` stage
(smartCalendarService.js lines 112-124). -/
def availabilityFor (participants : List Nat) (db : List Meeting) (s e : Int)
    (excl : Option Nat) (u : Nat) : AvailabilityEntry :=
  let cs := userConflicts participants db s e excl u
  let high := (cs.filter (fun m => m.priority == "high")).length
  { userId := u
    conflicts := cs.map conflictInfoOf
    conflictCount := cs.length
    highPriorityConflicts := high
    availability :=
      if cs.length == 0 then "available"
      else if high > 0 then "busy" else "tentative" }

/-- The value returned by `checkAvailability` on its success path. -/
structure CheckResult where
  success : Bool
  requestedStart : Int
  requestedEnd : Int
  duration : Int
  participants : List AvailabilityEntry
  summaryAvailable : Nat
  summaryBusy : Nat
  summaryTentative : Nat
  summaryTotal : Nat
  canSchedule : Bool
deriving Repr, DecidableEq

/-- `checkAvailability(participants, startTime, endTime, excludeMeetingId)`
(smartCalendarService.js lines 23-176).  `users` models the `users`
collection queried by `User.find({ _id: { $in: participants } })`; the JS code
maps over the found users, completing each one either with its aggregation
entry or with the all-clear default.  No input validation is performed; the
non-exceptional path always returns `success: true`. -/
def checkAvailability (db : List Meeting) (users : List Nat)
    (participants : List Nat) (startTime endTime : Int)
    (excl : Option Nat) : CheckResult :=
  let allParticipants := users.filter (fun u => participants.contains u)
  let fullAvailability :=
    allParticipants.map (availabilityFor participants db startTime endTime excl)
  { success := true
    requestedStart := startTime
    requestedEnd := endTime
    duration := endTime - startTime
    participants := fullAvailability
    summaryAvailable :=
      (fullAvailability.filter (fun p => p.availability == "available")).length
    summaryBusy :=
      (fullAvailability.filter (fun p => p.availability == "busy")).length
    summaryTentative :=
      (fullAvailability.filter (fun p => p.availability == "tentative")).length
    summaryTotal := fullAvailability.length
    canSchedule := fullAvailability.all (fun p => p.availability != "busy") }

/-- A moment-style date value: an absolute calendar day index together with a
minute-of-day.  `moment(x).hour(h).minute(m)` keeps the day and replaces the
minute-of-day; `add(1, 'day')` increments the day and keeps the minute.  Day 0
is chosen as a Thursday, matching the JavaScript epoch (1970-01-01). -/
structure MomentDate where
  day : Int
  minute : Int
deriving Repr, DecidableEq

/-- Absolute instant in minutes. -/
def MomentDate.instant (d : MomentDate) : Int := d.day * 1440 + d.minute

/-- `moment.isBefore`. -/
def MomentDate.isBefore (a b : MomentDate) : Bool := decide (a.instant < b.instant)

/-- `moment.add(k, 'days')`. -/
def MomentDate.addDays (d : MomentDate) (k : Int) : MomentDate := ⟨d.day + k, d.minute⟩

/-- `moment.hour()` for an in-day minute value. -/
def MomentDate.hour (d : MomentDate) : Int := d.minute / 60

/-- JavaScript day-of-week of an absolute day index: 0 = Sunday; day 0 (the
epoch) was a Thursday, hence the offset 4. -/
def dayDow (day : Int) : Int := (day + 4) % 7

/-- `moment.day()`: 0 = Sunday .. 6 = Saturday. -/
def MomentDate.dow (d : MomentDate) : Int := dayDow d.day

/-- The duck-typed `preferences` object, with the defaults the source applies
(`workingHours || { start: 9, end: 17 }`; absent booleans are falsy). -/
structure SchedPrefs where
  workingHoursStart : Int := 9
  workingHoursEnd : Int := 17
  includeWeekends : Bool := false
  preferredDays : List Int := []
  preferMorning : Bool := false
  preferAfternoon : Bool := false
  avoidMondays : Bool := false
  avoidFridays : Bool := false
deriving Repr, DecidableEq

/-- `calculateAdvancedTimeSlotScore(startTime, conflictScore, preferences)`
(smartCalendarService.js lines 684-710): sequential, condition-independent
`score +=`/`-=` updates starting from 100 (transcribed as a sum of guarded
adjustments, in source order), then `Math.max(0, score)`. -/
def calculateAdvancedTimeSlotScore (startTime : MomentDate) (conflictScore : Nat)
    (preferences : SchedPrefs) : Int :=
  let hour := startTime.hour
  let dayOfWeek := startTime.dow
  let score : Int := 100
    + (if hour ≥ 10 ∧ hour ≤ 11 then 25 else 0)
    + (if hour ≥ 14 ∧ hour ≤ 15 then 20 else 0)
    + (if hour = 9 ∨ hour = 16 then 10 else 0)
    + (if hour < 9 ∨ hour > 16 then -40 else 0)
    + (if dayOfWeek ∈ [2, 3, 4] then 15 else 0)
    + (if dayOfWeek ∈ [1, 5] then 8 else 0)
    + (if dayOfWeek ∈ [0, 6] then -50 else 0)
    - (conflictScore : Int) * 20
    + (if preferences.preferMorning ∧ hour < 12 then 15 else 0)
    + (if preferences.preferAfternoon ∧ hour ≥ 12 then 15 else 0)
    + (if preferences.avoidMondays ∧ dayOfWeek = 1 then -25 else 0)
    + (if preferences.avoidFridays ∧ dayOfWeek = 5 then -25 else 0)
  max 0 score

/-- `generateAdvancedSlotReasoning(startTime, conflictScore, score)`
(smartCalendarService.js lines 712-725); `reasons.join(', ') || default`. -/
def generateAdvancedSlotReasoning (startTime : MomentDate) (conflictScore : Nat)
    (score : Int) : String :=
  let hour := startTime.hour
  let reasons : List String :=
    (if hour ≥ 10 ∧ hour ≤ 11 then ["Peak productivity time"] else []) ++
    (if hour ≥ 14 ∧ hour ≤ 15 then ["Post-lunch energy"] else []) ++
    (if startTime.dow ∈ [2, 3, 4] then ["Mid-week focus"] else []) ++
    (if conflictScore = 0 then ["No scheduling conflicts"] else []) ++
    (if conflictScore > 0 then ["Minimal conflicts"] else []) ++
    (if score > 80 then ["Highly recommended"] else [])
  if reasons = [] then "Standard availability" else String.intercalate ", " reasons

/-- One generated slot (smartCalendarService.js lines 669-675). -/
structure Slot where
  startTime : MomentDate
  endTime : MomentDate
  score : Int
  conflictLevel : String
  reasoning : String
deriving Repr, DecidableEq

/-- The conflict map built from the aggregation output, keyed by the string
`date-flooredHour`, modelled as (absolute day, floored hour); `get || 0`. -/
def lookupConflict (cmap : List ((Int × Int) × Nat)) (day floorHour : Int) : Nat :=
  match cmap.find? (fun q => q.1 == (day, floorHour)) with
  | some q => q.2
  | none => 0

/-- `Math.ceil(duration / 60)` for a duration in minutes. -/
def ceilHoursOf (durationMin : Nat) : Int := ((durationMin + 59) / 60 : Nat)

/-- Number of iterations of the inner loop
`for (hour = start; hour <= end - ceil(dur/60); hour += 0.5)`. -/
def halfStepCount (durationMin : Nat) (p : SchedPrefs) : Nat :=
  let bound := p.workingHoursEnd - ceilHoursOf durationMin
  if p.workingHoursStart ≤ bound then (2 * (bound - p.workingHoursStart) + 1).toNat
  else 0

/-- The slots generated for one calendar day (smartCalendarService.js lines
659-676): half-hour steps `hour = start + j/2`, slot start at
`.hour(floor(hour)).minute((hour % 1) * 60)`, i.e. minute-of-day
`start*60 + 30*j`; the conflict key floors the fractional hour. -/
def daySlots (day : Int) (durationMin : Nat) (cmap : List ((Int × Int) × Nat))
    (p : SchedPrefs) : List Slot :=
  (List.range (halfStepCount durationMin p)).map (fun (j : Nat) =>
    let slotStart : MomentDate := ⟨day, p.workingHoursStart * 60 + 30 * j⟩
    let floorHour : Int := p.workingHoursStart + ((j / 2 : Nat) : Int)
    let conflictScore := lookupConflict cmap day floorHour
    let score := calculateAdvancedTimeSlotScore slotStart conflictScore p
    { startTime := slotStart
      endTime := ⟨day, p.workingHoursStart * 60 + 30 * j + durationMin⟩
      score := score
      conflictLevel := if conflictScore > 0 then "low" else "none"
      reasoning := generateAdvancedSlotReasoning slotStart conflictScore score })

/-- Number of iterations of the outer loop
`while (currentDate.isBefore(endDate)) { ...; currentDate.add(1, 'day') }`:
the day offsets `k` iterated are exactly those with
`startDate + k days < endDate` (see `iterCount_spec`). -/
def iterCount (startDate endDate : MomentDate) : Nat :=
  ((endDate.instant - startDate.instant + 1439) / 1440).toNat

/-- The weekend-skip guard of the outer loop (smartCalendarService.js line
654): `!preferences.includeWeekends && (day() === 0 || day() === 6)` skips the
day; nothing in the source consults `preferredDays`. -/
def keepDay (p : SchedPrefs) (day : Int) : Bool :=
  !(!p.includeWeekends && (dayDow day == 0 || dayDow day == 6))

/-- The unsorted slot list produced by `generateOptimalTimeSlots`' loops
(smartCalendarService.js lines 651-679). -/
def candidateSlots (startDate endDate : MomentDate) (durationMin : Nat)
    (cmap : List ((Int × Int) × Nat)) (p : SchedPrefs) : List Slot :=
  (List.range (iterCount startDate endDate)).flatMap (fun k =>
    if keepDay p (startDate.day + k) then
      daySlots (startDate.day + k) durationMin cmap p
    else [])

/-- `generateOptimalTimeSlots` (smartCalendarService.js lines 640-682):
generated slots sorted by `(a, b) => b.score - a.score` (stable, descending by
score). -/
def generateOptimalTimeSlots (startDate endDate : MomentDate) (durationMin : Nat)
    (cmap : List ((Int × Int) × Nat)) (p : SchedPrefs) : List Slot :=
  (candidateSlots startDate endDate durationMin cmap p).mergeSort
    (fun a b => decide (b.score ≤ a.score))

/-- The `flexibility` field computed by the `$project` stage of
`resolveSchedulingConflicts` (smartCalendarService.js lines 329-342):
`high` when `$type` is standup/check-in/update, else `medium` when priority is
`low`, else `low`. -/
def flexibilityOf (mtype priority : String) : String :=
  if ["standup", "check-in", "update"].contains mtype then "high"
  else if priority == "low" then "medium"
  else "low"

/-- One document of the `conflictAnalysis` aggregation output. -/
structure AnalyzedConflict where
  title : String
  startTime : Int
  endTime : Int
  priority : String
  mtype : String
  flexibility : String
deriving Repr, DecidableEq

def analyzeConflict (m : Meeting) : AnalyzedConflict :=
  ⟨m.title, m.startTime, m.endTime, m.priority, m.mtype,
    flexibilityOf m.mtype m.priority⟩

/-- One proposed resolution strategy. -/
structure Strategy where
  stype : String
  title : String
  description : String
  effort : String
  impact : String
  probability : ℚ
deriving Repr, DecidableEq

/-- Strategy 1 (always pushed): find alternative times. -/
def rescheduleStrategy : Strategy :=
  { stype := "reschedule", title := "Find Alternative Time",
    description := "Suggest optimal alternative times when all participants are available",
    effort := "low", impact := "high", probability := 9 / 10 }

/-- Strategy 2 (participants > 3). -/
def reduceParticipantsStrategy : Strategy :=
  { stype := "reduce_participants", title := "Optimize Participant List",
    description := "Remove non-essential participants to reduce conflicts",
    effort := "medium", impact := "medium", probability := 7 / 10 }

/-- Strategy 3 (duration > 60). -/
def splitMeetingStrategy : Strategy :=
  { stype := "split_meeting", title := "Split Into Multiple Sessions",
    description := "Break into smaller, focused sessions with relevant participants",
    effort := "high", impact := "medium", probability := 6 / 10 }

/-- Strategy 4 (some conflict has flexibility `high`); the description
interpolates the number of flexible conflicts. -/
def overrideConflictsStrategy (flexibleCount : Nat) : Strategy :=
  { stype := "override_conflicts", title := "Override Flexible Meetings",
    description := "Move " ++ toString flexibleCount ++
      " flexible meetings to accommodate this higher priority meeting",
    effort := "medium", impact := "high", probability := 8 / 10 }

/-- `generateResolutionStrategies(conflictData, conflictAnalysis, meetingData)`
(smartCalendarService.js lines 737-788): `reschedule` always; then
conditionally `reduce_participants` (`conflictData.participants.length > 3`),
`split_meeting` (`meetingData.duration > 60`), `override_conflicts` (some
analyzed conflict has `flexibility === 'high'`). -/
def generateResolutionStrategies (conflictParticipants : List AvailabilityEntry)
    (conflictAnalysis : List AnalyzedConflict) (meetingDuration : Int) :
    List Strategy :=
  let flexibleConflicts := conflictAnalysis.filter (fun c => c.flexibility == "high")
  [rescheduleStrategy]
  ++ (if conflictParticipants.length > 3 then [reduceParticipantsStrategy] else [])
  ++ (if meetingDuration > 60 then [splitMeetingStrategy] else [])
  ++ (if flexibleConflicts.length > 0 then
      [overrideConflictsStrategy flexibleConflicts.length] else [])

/-- JavaScript `Math.round`: round half toward positive infinity. -/
def jsRound (q : ℚ) : Int := ⌊q + 1 / 2⌋

/-- `calculateConfidenceScore(suggestions)` (smartCalendarService.js lines
727-735): `round((avg/100) * (max/100) * 100)` over the suggestion scores,
0 for an empty list. -/
def calculateConfidenceScore (suggestions : List Slot) : Int :=
  if suggestions.length = 0 then 0
  else
    let scores := suggestions.map Slot.score
    let avgScore : ℚ := (scores.sum : ℚ) / scores.length
    let maxScore : ℚ := ((scores.max?).getD 0 : ℚ)
    jsRound (avgScore / 100 * (maxScore / 100) * 100)

/-- `calculateSuggestionConfidence(suggestions)` of the AI-insights service
(lines 606-613); the only field read from each suggestion is its score, so the
input is modelled as the list of scores.  `topScore` is the FIRST score
(`suggestions[0].score`), not the maximum.  The model is faithful whenever the
first score is nonzero (at zero the JavaScript produces NaN). -/
def calculateSuggestionConfidence (suggestions : List Int) : Int :=
  if suggestions.length = 0 then 0
  else
    let topScore : ℚ := (suggestions.headD 0 : ℚ)
    let avgScore : ℚ := (suggestions.sum : ℚ) / suggestions.length
    jsRound (topScore / 100 * (1 - (topScore - avgScore) / topScore) * 100)

/-- A stored meeting whose organizer and participants are all outside the
requested participant list `[1]`. -/
def outsiderMeeting : Meeting :=
  { mid := 7, title := "team sync", startTime := 10, endTime := 50,
    priority := "medium", mtype := "meeting", status := "scheduled",
    organizer := 4, participants := [2, 3] }

/-- A meeting whose single overlapping conflict has priority `urgent`. -/
def urgentOnlyMeeting : Meeting :=
  { mid := 21, title := "release", startTime := 0, endTime := 60,
    priority := "urgent", mtype := "meeting", status := "scheduled",
    organizer := 2, participants := [1] }

/-- A high-priority stored meeting used by the C9 counterexample. -/
def highPriorityMeeting : Meeting :=
  { mid := 31, title := "board review", startTime := 0, endTime := 100,
    priority := "high", mtype := "review", status := "scheduled",
    organizer := 2, participants := [1] }

/-- Preferences excluding weekends while listing Saturday (day 6) among the
preferred days. -/
def prefsSatPreferred : SchedPrefs :=
  { includeWeekends := false, preferredDays := [6] }

/-- A conflicting meeting of category `meeting` with stated priority `low`. -/
def lowPriorityConflict : Meeting :=
  { mid := 41, title := "one-on-one", startTime := 0, endTime := 120,
    priority := "low", mtype := "meeting", status := "scheduled",
    organizer := 2, participants := [1] }

/-- Five availability entries, giving a participant count greater than 3. -/
def fiveEntries : List AvailabilityEntry :=
  [⟨1, [], 0, 0, "available"⟩, ⟨2, [], 0, 0, "available"⟩,
   ⟨3, [], 0, 0, "available"⟩, ⟨4, [], 0, 0, "available"⟩,
   ⟨5, [], 0, 0, "available"⟩]

/-- A single scored slot used to instantiate the confidence formulas. -/
def sampleSlot : Slot :=
  { startTime := ⟨0, 600⟩, endTime := ⟨0, 630⟩, score := 120,
    conflictLevel := "none", reasoning := "Peak productivity time" }

/-- Normal form of the `checkAvailability` match object: under JavaScript
object-literal evaluation the first `$or` (participant membership) is
overwritten by the second `$or` (time overlap). -/
theorem checkAvailabilityMatchObject_eq (participants : List Nat) (s e : Int)
    (excl : Option Nat) :
    checkAvailabilityMatchObject participants s e excl =
      [("$or", FilterCond.orTime s e),
       ("status", FilterCond.statusIn ["scheduled", "in_progress"])] ++
      (match excl with
       | some i => [("_id", FilterCond.idNe i)]
       | none => []) := by
  cases excl <;> rfl

/-- Normal form of the `detectConflicts` match object of the AI-insights
service: the participant `$or` is likewise overwritten. -/
theorem detectConflictsMatchObject_eq (organizer : Nat) (participants : List Nat)
    (s e : Int) :
    detectConflictsMatchObject organizer participants s e =
      [("$or", FilterCond.orTime s e),
       ("status", FilterCond.statusIn ["scheduled", "in_progress"])] := rfl

/-- The time-overlap branch equivalence, shared by several proofs. -/
theorem matchTimeOverlap_iff (s1 e1 s2 e2 : Int) (h1 : s1 < e1) (h2 : s2 < e2) :
    matchTimeOverlap s1 e1 s2 e2 = true ↔ (s1 < e2 ∧ s2 < e1) := by
  simp only [matchTimeOverlap, Bool.or_eq_true, Bool.and_eq_true,
    decide_eq_true_eq, gt_iff_lt, ge_iff_le]
  omega

/-- C1: for every query window `[s1,e1)` and stored busy interval `[s2,e2)`
(both non-degenerate), the time condition of `checkAvailability`'s `$match`
holds iff `s1 < e2 ∧ s2 < e1`; intervals touching only at a boundary are not
conflicts; the relation is symmetric; and a scheduled meeting `[s2,e2)`
containing user `u` is listed among `u`'s conflicts iff it is in the database,
is not the excluded meeting, and satisfies exactly that overlap rule. -/
theorem overlap_rule_correct (s1 e1 s2 e2 : Int) (h1 : s1 < e1) (h2 : s2 < e2) :
    (matchTimeOverlap s1 e1 s2 e2 = true ↔ (s1 < e2 ∧ s2 < e1))
    ∧ (e1 = s2 → matchTimeOverlap s1 e1 s2 e2 = false)
    ∧ (e2 = s1 → matchTimeOverlap s1 e1 s2 e2 = false)
    ∧ matchTimeOverlap s1 e1 s2 e2 = matchTimeOverlap s2 e2 s1 e1
    ∧ (∀ (ps : List Nat) (db : List Meeting) (excl : Option Nat) (u : Nat)
        (m : Meeting), m.startTime = s2 → m.endTime = e2 →
        m.status = "scheduled" →
        (m ∈ userConflicts ps db s1 e1 excl u ↔
          m ∈ db ∧ u ∈ m.participants ∧ (∀ i, excl = some i → m.mid ≠ i) ∧
            s1 < e2 ∧ s2 < e1)) := by
  refine ⟨matchTimeOverlap_iff s1 e1 s2 e2 h1 h2, ?_, ?_, ?_, ?_⟩
  · intro h
    rw [Bool.eq_false_iff, Ne, matchTimeOverlap_iff s1 e1 s2 e2 h1 h2]
    omega
  · intro h
    rw [Bool.eq_false_iff, Ne, matchTimeOverlap_iff s1 e1 s2 e2 h1 h2]
    omega
  · rw [Bool.eq_iff_iff, matchTimeOverlap_iff s1 e1 s2 e2 h1 h2,
      matchTimeOverlap_iff s2 e2 s1 e1 h2 h1]
    tauto
  · intro ps db excl u m hs he hst
    unfold userConflicts matchedMeetings
    rw [List.mem_filter, List.mem_filter]
    simp only [matchesObject, checkAvailabilityMatchObject_eq]
    cases excl with
    | none =>
        simp only [List.append_nil, List.all_cons, List.all_nil, condHolds,
          Bool.and_eq_true, Bool.and_true, List.contains, List.elem_eq_mem, hst,
          decide_eq_true_eq, List.mem_cons, List.not_mem_nil]
        rw [matchTimeOverlap_iff s1 e1 m.startTime m.endTime h1 (hs ▸ he ▸ h2)]
        rw [hs, he]
        constructor
        · rintro ⟨⟨hdb, hov, -⟩, hu⟩
          exact ⟨hdb, hu, by simp, hov⟩
        · rintro ⟨hdb, hu, -, hov⟩
          exact ⟨⟨hdb, hov, Or.inl trivial⟩, hu⟩
    | some i =>
        simp only [List.cons_append, List.nil_append, List.all_cons,
          List.all_nil, condHolds, Bool.and_eq_true, Bool.and_true,
          List.contains, List.elem_eq_mem, hst, decide_eq_true_eq, List.mem_cons,
          List.not_mem_nil]
        rw [matchTimeOverlap_iff s1 e1 m.startTime m.endTime h1 (hs ▸ he ▸ h2)]
        rw [hs, he]
        constructor
        · rintro ⟨⟨hdb, hov, -, hne⟩, hu⟩
          exact ⟨hdb, hu, fun j hj => by cases hj; exact hne, hov⟩
        · rintro ⟨hdb, hu, hne, hov⟩
          exact ⟨⟨hdb, hov, Or.inl trivial, hne i rfl⟩, hu⟩

/-- C5: because the `$match` object literal defines the key `$or` twice, the
participant-membership disjunction is overwritten by the time-overlap
disjunction: the constructed filter is identical for any two participant lists
(in `checkAvailability` and in `detectConflicts` of the AI-insights service),
and a meeting involving none of the requested participants still matches. -/
theorem duplicate_or_key_drops_participants :
    (∀ (p1 p2 : List Nat) (s e : Int) (excl : Option Nat),
        checkAvailabilityMatchObject p1 s e excl =
          checkAvailabilityMatchObject p2 s e excl)
    ∧ (∀ (o1 o2 : Nat) (p1 p2 : List Nat) (s e : Int),
        detectConflictsMatchObject o1 p1 s e =
          detectConflictsMatchObject o2 p2 s e)
    ∧ matchesObject (checkAvailabilityMatchObject [1] 0 60 none)
        outsiderMeeting = true
    ∧ outsiderMeeting.organizer ∉ ([1] : List Nat)
    ∧ ∀ u ∈ outsiderMeeting.participants, u ∉ ([1] : List Nat) := by
  refine ⟨?_, ?_, by decide, by decide, by decide⟩
  · intro p1 p2 s e excl
    rw [checkAvailabilityMatchObject_eq, checkAvailabilityMatchObject_eq]
  · intro o1 o2 p1 p2 s e
    rfl

/-- C2 (counterexample): for window `[30,90)`, participant 1 has exactly one
overlapping stored interval and its priority is `urgent`; the claim requires
status `busy`, but the aggregation counts only priority `high`, so the code
assigns `tentative`. -/
theorem availability_urgent_counterexample :
    (availabilityFor [1] [urgentOnlyMeeting] 30 90 none 1).conflictCount = 1
    ∧ (availabilityFor [1] [urgentOnlyMeeting] 30 90 none 1).conflicts.map
        ConflictInfo.priority = ["urgent"]
    ∧ (availabilityFor [1] [urgentOnlyMeeting] 30 90 none 1).availability =
        "tentative"
    ∧ (availabilityFor [1] [urgentOnlyMeeting] 30 90 none 1).availability ≠
        "busy" := by
  refine ⟨rfl, rfl, rfl, by decide⟩

/-- C2 (amended): a participant's status is `busy` iff some overlapping
conflict has priority exactly `high` (priority `urgent` does not count),
`tentative` iff conflicts exist but none has priority `high`, and `available`
iff there is no overlapping conflict. -/
theorem availability_status_rule (participants : List Nat) (db : List Meeting)
    (s e : Int) (excl : Option Nat) (u : Nat) :
    ((availabilityFor participants db s e excl u).availability = "busy" ↔
      ∃ c ∈ (availabilityFor participants db s e excl u).conflicts,
        c.priority = "high")
    ∧ ((availabilityFor participants db s e excl u).availability = "tentative" ↔
      (availabilityFor participants db s e excl u).conflicts ≠ [] ∧
        ∀ c ∈ (availabilityFor participants db s e excl u).conflicts,
          c.priority ≠ "high")
    ∧ ((availabilityFor participants db s e excl u).availability = "available" ↔
      (availabilityFor participants db s e excl u).conflicts = []) := by
  have hav : (availabilityFor participants db s e excl u).availability =
      (if (userConflicts participants db s e excl u).length == 0 then "available"
       else if ((userConflicts participants db s e excl u).filter
           (fun m => m.priority == "high")).length > 0 then "busy"
       else "tentative") := rfl
  have hconf : (availabilityFor participants db s e excl u).conflicts =
      (userConflicts participants db s e excl u).map conflictInfoOf := rfl
  rw [hav, hconf]
  set cs := userConflicts participants db s e excl u with hcs
  have hmap : ∀ (q : String),
      (∃ c ∈ cs.map conflictInfoOf, c.priority = q) ↔ ∃ m ∈ cs, m.priority = q := by
    intro q
    constructor
    · rintro ⟨c, hc, hq⟩
      rcases List.mem_map.mp hc with ⟨m, hm, rfl⟩
      exact ⟨m, hm, hq⟩
    · rintro ⟨m, hm, hq⟩
      exact ⟨conflictInfoOf m, List.mem_map.mpr ⟨m, hm, rfl⟩, hq⟩
  have hfilter : (0 < (cs.filter (fun m => m.priority == "high")).length) ↔
      ∃ m ∈ cs, m.priority = "high" := by
    rw [List.length_pos_iff_ne_nil]
    constructor
    · intro hn
      rcases List.exists_mem_of_ne_nil _ hn with ⟨m, hm⟩
      rw [List.mem_filter] at hm
      exact ⟨m, hm.1, by simpa using hm.2⟩
    · rintro ⟨m, hm, hq⟩ hnil
      have hmem : m ∈ cs.filter (fun m => m.priority == "high") :=
        List.mem_filter.mpr ⟨hm, by simpa using hq⟩
      rw [hnil] at hmem
      exact absurd hmem (List.not_mem_nil m)
  by_cases h : cs = []
  · simp [h]
  · have hb : (cs.length == 0) = false :=
      beq_eq_false_iff_ne.mpr (fun h0 => h (List.length_eq_zero.mp h0))
    rw [hb]
    by_cases hh : ∃ m ∈ cs, m.priority = "high"
    · rw [if_neg (by simp), if_pos (hfilter.mpr hh)]
      refine ⟨⟨fun _ => (hmap "high").mpr hh, fun _ => rfl⟩, ?_, ?_⟩
      · constructor
        · intro hcontra
          exact absurd hcontra (by decide)
        · rintro ⟨-, hall⟩
          rcases hh with ⟨m, hm, hq⟩
          exact absurd hq (hall (conflictInfoOf m) (List.mem_map.mpr ⟨m, hm, rfl⟩))
      · constructor
        · intro hcontra
          exact absurd hcontra (by decide)
        · intro hnil
          exact absurd (List.map_eq_nil_iff.mp hnil) h
    · have hf : ¬ (cs.filter (fun m => m.priority == "high")).length > 0 :=
        fun hl => hh (hfilter.mp hl)
      rw [if_neg (by simp), if_neg hf]
      refine ⟨?_, ?_, ?_⟩
      · constructor
        · intro hcontra
          exact absurd hcontra (by decide)
        · intro hex
          exact absurd ((hmap "high").mp hex) hh
      · constructor
        · intro _
          refine ⟨fun hnil => h (List.map_eq_nil_iff.mp hnil), ?_⟩
          intro c hc hcp
          rcases List.mem_map.mp hc with ⟨m, hm, rfl⟩
          exact hh ⟨m, hm, hcp⟩
        · intro _
          rfl
      · constructor
        · intro hcontra
          exact absurd hcontra (by decide)
        · intro hnil
          exact absurd (List.map_eq_nil_iff.mp hnil) h

/-- C3: `canSchedule` is true iff no returned participant is `busy`; one
AvailabilityResult is emitted per requested participant (one with an empty
conflict list is emitted as `available`, never dropped); zero participants
give `canSchedule = true` with an empty result list. -/
theorem checkAvailability_result_shape (db : List Meeting)
    (users participants : List Nat) (s e : Int) (excl : Option Nat)
    (hnd : participants.Nodup) (hnu : users.Nodup)
    (hsub : ∀ p ∈ participants, p ∈ users) :
    ((checkAvailability db users participants s e excl).canSchedule = true ↔
      ∀ p ∈ (checkAvailability db users participants s e excl).participants,
        p.availability ≠ "busy")
    ∧ (checkAvailability db users participants s e excl).participants.length =
        participants.length
    ∧ (∀ u ∈ participants,
        ∃ entry ∈ (checkAvailability db users participants s e excl).participants,
          entry.userId = u ∧
          (userConflicts participants db s e excl u = [] →
            entry.availability = "available" ∧ entry.conflicts = []))
    ∧ (participants = [] →
        (checkAvailability db users participants s e excl).canSchedule = true ∧
        (checkAvailability db users participants s e excl).participants = []) := by
  refine ⟨?_, ?_, ?_, ?_⟩
  · simp only [checkAvailability, List.all_eq_true, bne_iff_ne, ne_eq]
  · simp only [checkAvailability, List.length_map]
    apply List.Perm.length_eq
    rw [List.perm_ext_iff_of_nodup (hnu.filter _) hnd]
    intro a
    simp only [List.mem_filter, List.contains, List.elem_eq_mem,
      decide_eq_true_eq]
    exact ⟨fun hp => hp.2, fun hp => ⟨hsub a hp, hp⟩⟩
  · intro u hu
    refine ⟨availabilityFor participants db s e excl u, ?_, rfl, ?_⟩
    · simp only [checkAvailability]
      exact List.mem_map.mpr ⟨u, List.mem_filter.mpr
        ⟨hsub u hu, by simp [List.contains, List.elem_eq_mem, hu]⟩, rfl⟩
    · intro h0
      constructor
      · show (if (userConflicts participants db s e excl u).length == 0
            then "available"
            else if ((userConflicts participants db s e excl u).filter
                (fun m => m.priority == "high")).length > 0 then "busy"
            else "tentative") = "available"
        rw [h0]
        rfl
      · show (userConflicts participants db s e excl u).map conflictInfoOf = []
        rw [h0]
        rfl
  · intro hp
    subst hp
    exact ⟨by simp [checkAvailability], by simp [checkAvailability]⟩

/-- C3 witness. -/
theorem checkAvailability_result_shape_witness :
    ([1, 2] : List Nat).Nodup ∧ ([1, 2, 3] : List Nat).Nodup ∧
    (∀ p ∈ ([1, 2] : List Nat), p ∈ ([1, 2, 3] : List Nat)) ∧
    (((checkAvailability [] [1, 2, 3] [1, 2] 0 60 none).canSchedule = true ↔
      ∀ p ∈ (checkAvailability [] [1, 2, 3] [1, 2] 0 60 none).participants,
        p.availability ≠ "busy")
    ∧ (checkAvailability [] [1, 2, 3] [1, 2] 0 60 none).participants.length =
        ([1, 2] : List Nat).length
    ∧ (∀ u ∈ ([1, 2] : List Nat),
        ∃ entry ∈ (checkAvailability [] [1, 2, 3] [1, 2] 0 60 none).participants,
          entry.userId = u ∧
          (userConflicts [1, 2] [] 0 60 none u = [] →
            entry.availability = "available" ∧ entry.conflicts = []))
    ∧ (([1, 2] : List Nat) = [] →
        (checkAvailability [] [1, 2, 3] [1, 2] 0 60 none).canSchedule = true ∧
        (checkAvailability [] [1, 2, 3] [1, 2] 0 60 none).participants = [])) :=
  ⟨by decide, by decide, by decide,
    checkAvailability_result_shape [] [1, 2, 3] [1, 2] 0 60 none
      (by decide) (by decide) (by decide)⟩

/-- C9 (counterexample): the zero-duration window `start = end = 50` is not
rejected at the function boundary: `checkAvailability` computes and returns a
normal success result (there is no `InvalidWindow` validation anywhere in the
function). -/
theorem no_invalid_window_rejection_counterexample :
    (checkAvailability [highPriorityMeeting] [1] [1] 50 50 none).success = true
    ∧ (checkAvailability [highPriorityMeeting] [1] [1] 50 50 none).duration = 0
    ∧ (checkAvailability [highPriorityMeeting] [1] [1] 50 50
        none).participants.length = 1 := ⟨rfl, rfl, rfl⟩

/-- C9 (amended): `checkAvailability` performs no window validation: for every
window with `start >= end` it still computes a normal success result, with the
(non-positive) duration and one entry per found participant, instead of
rejecting the input. -/
theorem checkAvailability_no_window_validation (db : List Meeting)
    (users participants : List Nat) (s e : Int) (excl : Option Nat)
    (h : e ≤ s) :
    (checkAvailability db users participants s e excl).success = true
    ∧ (checkAvailability db users participants s e excl).duration ≤ 0
    ∧ (checkAvailability db users participants s e excl).participants.length =
        (users.filter (fun u => participants.contains u)).length := by
  refine ⟨rfl, ?_, by simp [checkAvailability]⟩
  show e - s ≤ 0
  omega

/-- C9 witness. -/
theorem checkAvailability_no_window_validation_witness :
    (5 : Int) ≤ 5 ∧
    ((checkAvailability [] [1] [1] 5 5 none).success = true
    ∧ (checkAvailability [] [1] [1] 5 5 none).duration ≤ 0
    ∧ (checkAvailability [] [1] [1] 5 5 none).participants.length =
        (([1] : List Nat).filter (fun u => ([1] : List Nat).contains u)).length) :=
  ⟨by decide, checkAvailability_no_window_validation [] [1] [1] 5 5 none
    (by decide)⟩

/-- C1 witness. -/
theorem overlap_rule_correct_witness :
    (0 : Int) < 60 ∧ (30 : Int) < 90 ∧
    ((matchTimeOverlap 0 60 30 90 = true ↔ ((0 : Int) < 90 ∧ (30 : Int) < 60))
    ∧ ((60 : Int) = 30 → matchTimeOverlap 0 60 30 90 = false)
    ∧ ((90 : Int) = 0 → matchTimeOverlap 0 60 30 90 = false)
    ∧ matchTimeOverlap 0 60 30 90 = matchTimeOverlap 30 90 0 60
    ∧ (∀ (ps : List Nat) (db : List Meeting) (excl : Option Nat) (u : Nat)
        (m : Meeting), m.startTime = 30 → m.endTime = 90 →
        m.status = "scheduled" →
        (m ∈ userConflicts ps db 0 60 excl u ↔
          m ∈ db ∧ u ∈ m.participants ∧ (∀ i, excl = some i → m.mid ≠ i) ∧
            (0 : Int) < 90 ∧ (30 : Int) < 60))) :=
  ⟨by decide, by decide, overlap_rule_correct 0 60 30 90 (by decide) (by decide)⟩

/-- C4: the slot score is 100 plus the claimed hour-of-day, day-of-week,
conflict and preference adjustments, clamped below at 0 (so never negative);
a Tuesday 10:30 slot (day index 5 is a Tuesday) with zero conflicts and
default preferences scores exactly 140. -/
theorem advanced_score_formula (t : MomentDate) (c : Nat) (p : SchedPrefs) :
    (calculateAdvancedTimeSlotScore t c p =
      max 0 (100
        + (if t.hour = 10 ∨ t.hour = 11 then 25 else 0)
        + (if t.hour = 14 ∨ t.hour = 15 then 20 else 0)
        + (if t.hour = 9 ∨ t.hour = 16 then 10 else 0)
        + (if t.hour < 9 ∨ t.hour > 16 then -40 else 0)
        + (if t.dow ∈ [2, 3, 4] then 15 else 0)
        + (if t.dow ∈ [1, 5] then 8 else 0)
        + (if t.dow ∈ [0, 6] then -50 else 0)
        - (c : Int) * 20
        + (if p.preferMorning ∧ t.hour < 12 then 15 else 0)
        + (if p.preferAfternoon ∧ t.hour ≥ 12 then 15 else 0)
        + (if p.avoidMondays ∧ t.dow = 1 then -25 else 0)
        + (if p.avoidFridays ∧ t.dow = 5 then -25 else 0)))
    ∧ 0 ≤ calculateAdvancedTimeSlotScore t c p
    ∧ calculateAdvancedTimeSlotScore ⟨5, 630⟩ 0 {} = 140 := by
  have e1 : (t.hour ≥ 10 ∧ t.hour ≤ 11) = (t.hour = 10 ∨ t.hour = 11) := by
    apply propext
    constructor <;> omega
  have e2 : (t.hour ≥ 14 ∧ t.hour ≤ 15) = (t.hour = 14 ∨ t.hour = 15) := by
    apply propext
    constructor <;> omega
  have hmain : calculateAdvancedTimeSlotScore t c p =
      max 0 (100
        + (if t.hour = 10 ∨ t.hour = 11 then 25 else 0)
        + (if t.hour = 14 ∨ t.hour = 15 then 20 else 0)
        + (if t.hour = 9 ∨ t.hour = 16 then 10 else 0)
        + (if t.hour < 9 ∨ t.hour > 16 then -40 else 0)
        + (if t.dow ∈ [2, 3, 4] then 15 else 0)
        + (if t.dow ∈ [1, 5] then 8 else 0)
        + (if t.dow ∈ [0, 6] then -50 else 0)
        - (c : Int) * 20
        + (if p.preferMorning ∧ t.hour < 12 then 15 else 0)
        + (if p.preferAfternoon ∧ t.hour ≥ 12 then 15 else 0)
        + (if p.avoidMondays ∧ t.dow = 1 then -25 else 0)
        + (if p.avoidFridays ∧ t.dow = 5 then -25 else 0)) := by
    simp only [calculateAdvancedTimeSlotScore, e1, e2]
  refine ⟨hmain, ?_, by decide⟩
  rw [hmain]
  exact le_max_left 0 _

/-- Loop-count characterisation of the `while (currentDate.isBefore(endDate))`
loop: day offset `k` is iterated iff `startDate + k days` is before
`endDate`. -/
theorem iterCount_spec (a b : MomentDate) (k : Nat) :
    k < iterCount a b ↔ (a.addDays k).isBefore b = true := by
  simp only [iterCount, MomentDate.addDays, MomentDate.isBefore,
    MomentDate.instant, decide_eq_true_eq]
  omega

/-- Every slot of a day block lies on that day, with the half-hour grid
minute values. -/
theorem daySlots_shape (day : Int) (dur : Nat) (cmap : List ((Int × Int) × Nat))
    (p : SchedPrefs) : ∀ s ∈ daySlots day dur cmap p,
    s.startTime.day = day ∧ s.endTime.day = day ∧
    ∃ j : Nat, j < halfStepCount dur p ∧
      s.startTime.minute = p.workingHoursStart * 60 + 30 * j ∧
      s.endTime.minute = p.workingHoursStart * 60 + 30 * j + dur := by
  intro s hs
  simp only [daySlots, List.mem_map, List.mem_range] at hs
  rcases hs with ⟨j, hj, rfl⟩
  exact ⟨rfl, rfl, j, hj, rfl, rfl⟩

theorem daySlots_length (day : Int) (dur : Nat) (cmap : List ((Int × Int) × Nat))
    (p : SchedPrefs) : (daySlots day dur cmap p).length = halfStepCount dur p := by
  simp [daySlots]

theorem filter_day_daySlots (day d : Int) (dur : Nat)
    (cmap : List ((Int × Int) × Nat)) (p : SchedPrefs) :
    (daySlots day dur cmap p).filter (fun s => s.startTime.day == d) =
      if day = d then daySlots day dur cmap p else [] := by
  split_ifs with h
  · subst h
    apply List.filter_eq_self.mpr
    intro s hs
    have hd := (daySlots_shape day dur cmap p s hs).1
    simp [hd]
  · apply List.filter_eq_nil_iff.mpr
    intro s hs
    have hd := (daySlots_shape day dur cmap p s hs).1
    simp [hd, h]

theorem filter_flatMap_comm {α β : Type} (l : List α) (f : α → List β)
    (q : β → Bool) :
    (l.flatMap f).filter q = l.flatMap (fun a => (f a).filter q) := by
  induction l with
  | nil => rfl
  | cons a l ih => simp [List.flatMap_cons, List.filter_append, ih]

theorem sum_range_indicator (n : Nat) (b d : Int) (v : Nat) :
    ((List.range n).map (fun (k : Nat) => if b + (k : Int) = d then v else 0)).sum =
      if b ≤ d ∧ d < b + (n : Int) then v else 0 := by
  induction n with
  | zero =>
      rw [if_neg (by omega)]
      rfl
  | succ n ih =>
      rw [List.range_succ, List.map_append, List.sum_append, ih]
      simp only [List.map_cons, List.map_nil, List.sum_cons, List.sum_nil]
      by_cases h1 : b + (n : Int) = d
      · rw [if_pos h1, if_neg (by omega), if_pos (by push_cast; omega)]
        omega
      · rw [if_neg h1]
        by_cases h2 : b ≤ d ∧ d < b + (n : Int)
        · rw [if_pos h2, if_pos (by push_cast; omega)]
          omega
        · rw [if_neg h2, if_neg (by push_cast; omega)]
          omega

/-- How many generated candidates fall on absolute day `d`: the full day block
when `d` is reached by the loop and kept, none otherwise. -/
theorem candidate_filter_day (start endD : MomentDate) (dur : Nat)
    (cmap : List ((Int × Int) × Nat)) (p : SchedPrefs) (d : Int) :
    ((candidateSlots start endD dur cmap p).filter
        (fun s => s.startTime.day == d)).length =
      if start.day ≤ d ∧ d * 1440 + start.minute < endD.instant ∧
          keepDay p d = true
      then halfStepCount dur p else 0 := by
  rw [candidateSlots, filter_flatMap_comm, List.length_flatMap]
  simp only [Function.comp_def]
  have hfun : ∀ k : Nat,
      ((if keepDay p (start.day + (k : Int)) then
          daySlots (start.day + (k : Int)) dur cmap p
        else []).filter (fun s => s.startTime.day == d)).length =
      if start.day + (k : Int) = d then
          (if keepDay p d = true then halfStepCount dur p else 0) else 0 := by
    intro k
    by_cases hk : keepDay p (start.day + (k : Int)) = true
    · rw [if_pos hk, filter_day_daySlots]
      by_cases hd : start.day + (k : Int) = d
      · rw [if_pos hd, if_pos hd, if_pos (hd ▸ hk), daySlots_length]
      · rw [if_neg hd, if_neg hd]
        rfl
    · rw [if_neg hk]
      by_cases hd : start.day + (k : Int) = d
      · rw [if_pos hd, if_neg (hd ▸ hk)]
        rfl
      · rw [if_neg hd]
        rfl
  rw [List.map_congr_left (fun k _ => hfun k)]
  simp only [MomentDate.instant]
  by_cases hkd : keepDay p d = true
  · simp only [if_pos hkd]
    rw [sum_range_indicator]
    by_cases hr : start.day ≤ d ∧ d < start.day + (iterCount start endD : Int)
    · rw [if_pos hr, if_pos]
      refine ⟨hr.1, ?_, hkd⟩
      have hk := (iterCount_spec start endD (d - start.day).toNat).mp (by omega)
      simp only [MomentDate.addDays, MomentDate.isBefore, MomentDate.instant,
        decide_eq_true_eq] at hk
      omega
    · rw [if_neg hr, if_neg]
      intro hcon
      rcases hcon with ⟨hc1, hc2, -⟩
      apply hr
      refine ⟨hc1, ?_⟩
      have hk := (iterCount_spec start endD (d - start.day).toNat).mpr (by
        simp only [MomentDate.addDays, MomentDate.isBefore, MomentDate.instant,
          decide_eq_true_eq]
        omega)
      omega
  · simp only [if_neg hkd]
    rw [if_neg (fun hcon => hkd hcon.2.2)]
    have hz : ∀ k : Nat, (if start.day + (k : Int) = d then 0 else 0) = 0 :=
      fun k => by split_ifs <;> rfl
    rw [List.map_congr_left (fun k _ => hz k)]
    simp

/-- C6 (amended): for duration 30 and working hours 9-17, every reached and
kept day contributes exactly 15 half-hour-aligned 30-minute windows, and every
yielded window lies within `[startOfDay(horizonStart), horizonStart +
horizonDays)` (measuring the horizon from midnight of the start day:
`start.day * 1440` to `(start.day + iterCount) * 1440`), with its start hour
inside the working hours.  The windows of the first day may precede
`horizonStart` itself when `horizonStart` is not midnight-aligned (see the
counterexample), which is the only divergence from the original claim. -/
theorem candidate_generator_counts (start endD : MomentDate)
    (cmap : List ((Int × Int) × Nat)) (p : SchedPrefs) (d : Int)
    (hws : p.workingHoursStart = 9) (hwe : p.workingHoursEnd = 17)
    (hd1 : start.day ≤ d) (hd2 : d * 1440 + start.minute < endD.instant)
    (hk : keepDay p d = true) :
    ((generateOptimalTimeSlots start endD 30 cmap p).filter
        (fun s => s.startTime.day == d)).length = 15
    ∧ (∀ s ∈ generateOptimalTimeSlots start endD 30 cmap p,
        s.startTime.minute % 30 = 0
        ∧ s.endTime.instant = s.startTime.instant + 30
        ∧ 9 ≤ s.startTime.hour ∧ s.startTime.hour ≤ 16
        ∧ start.day * 1440 ≤ s.startTime.instant
        ∧ s.endTime.instant < (start.day + (iterCount start endD : Int)) * 1440) := by
  constructor
  · have hperm := List.mergeSort_perm (candidateSlots start endD 30 cmap p)
      (fun a b => decide (b.score ≤ a.score))
    rw [generateOptimalTimeSlots,
      (hperm.filter (fun s => s.startTime.day == d)).length_eq,
      candidate_filter_day, if_pos ⟨hd1, hd2, hk⟩]
    simp [halfStepCount, ceilHoursOf, hws, hwe]
  · intro s hs
    rw [generateOptimalTimeSlots, List.mem_mergeSort, candidateSlots,
      List.mem_flatMap] at hs
    rcases hs with ⟨k, hkr, hsk⟩
    rw [List.mem_range] at hkr
    by_cases hkeep : keepDay p (start.day + (k : Int)) = true
    · rw [if_pos hkeep] at hsk
      rcases daySlots_shape _ _ _ _ s hsk with ⟨hsd, hed, j, hj, hsm, hem⟩
      have hj15 : j < 15 := by
        have : halfStepCount 30 p = 15 := by
          simp [halfStepCount, ceilHoursOf, hws, hwe]
        omega
      rw [hws] at hsm hem
      refine ⟨by omega, ?_, ?_, ?_, ?_, ?_⟩
      · simp only [MomentDate.instant, hsd, hed]
        omega
      · rw [MomentDate.hour, hsm]
        omega
      · rw [MomentDate.hour, hsm]
        omega
      · simp only [MomentDate.instant, hsd]
        omega
      · simp only [MomentDate.instant, hed]
        have : (k : Int) < (iterCount start endD : Int) := by exact_mod_cast hkr
        omega
    · rw [if_neg hkeep] at hsk
      exact absurd hsk (List.not_mem_nil s)

/-- C6 witness. -/
theorem candidate_generator_counts_witness :
    (({} : SchedPrefs).workingHoursStart = 9
    ∧ ({} : SchedPrefs).workingHoursEnd = 17
    ∧ (⟨0, 0⟩ : MomentDate).day ≤ 1
    ∧ (1 : Int) * 1440 + (⟨0, 0⟩ : MomentDate).minute <
        MomentDate.instant ⟨7, 0⟩
    ∧ keepDay {} 1 = true)
    ∧ (((generateOptimalTimeSlots ⟨0, 0⟩ ⟨7, 0⟩ 30 [] {}).filter
        (fun s => s.startTime.day == 1)).length = 15
    ∧ (∀ s ∈ generateOptimalTimeSlots ⟨0, 0⟩ ⟨7, 0⟩ 30 [] {},
        s.startTime.minute % 30 = 0
        ∧ s.endTime.instant = s.startTime.instant + 30
        ∧ 9 ≤ s.startTime.hour ∧ s.startTime.hour ≤ 16
        ∧ (⟨0, 0⟩ : MomentDate).day * 1440 ≤ s.startTime.instant
        ∧ s.endTime.instant <
            ((⟨0, 0⟩ : MomentDate).day +
              (iterCount ⟨0, 0⟩ ⟨7, 0⟩ : Int)) * 1440)) :=
  ⟨⟨rfl, rfl, by decide, by decide, by decide⟩,
    candidate_generator_counts ⟨0, 0⟩ ⟨7, 0⟩ [] {} 1 rfl rfl (by decide)
      (by decide) (by decide)⟩

/-- C6 (counterexample): with `horizonStart` at day 0, 18:00 (a Thursday) and
a one-day horizon, the generator still emits the whole 9:00-16:00 grid of day
0; the 9:00-9:30 window starts at instant 540, before `horizonStart`'s
instant 1080, so not every yielded window lies within
`[horizonStart, horizonStart + horizonDays)` as the claim states. -/
theorem slot_before_horizon_counterexample :
    ({ startTime := ⟨0, 540⟩, endTime := ⟨0, 570⟩, score := 125,
       conflictLevel := "none",
       reasoning := "Mid-week focus, No scheduling conflicts, Highly recommended" }
      : Slot) ∈ generateOptimalTimeSlots ⟨0, 1080⟩ ⟨1, 1080⟩ 30 [] {}
    ∧ MomentDate.instant ⟨0, 540⟩ < MomentDate.instant ⟨0, 1080⟩ := by
  constructor
  · rw [generateOptimalTimeSlots, List.mem_mergeSort]
    decide
  · decide

/-- C7 (amended): when `includeWeekends` is false, `generateOptimalTimeSlots`
yields no Saturday or Sunday slot, and `preferredDays` provides no exception:
the generator never reads `preferredDays` at all, so its output is identical
for every value of that field. -/
theorem weekend_skip_ignores_preferredDays (start endD : MomentDate)
    (dur : Nat) (cmap : List ((Int × Int) × Nat)) (p : SchedPrefs)
    (h : p.includeWeekends = false) :
    (∀ pd : List Int,
        generateOptimalTimeSlots start endD dur cmap
          { p with preferredDays := pd } =
        generateOptimalTimeSlots start endD dur cmap p)
    ∧ ∀ s ∈ generateOptimalTimeSlots start endD dur cmap p,
        s.startTime.dow ≠ 0 ∧ s.startTime.dow ≠ 6 := by
  constructor
  · intro pd
    rfl
  · intro s hs
    rw [generateOptimalTimeSlots, List.mem_mergeSort, candidateSlots,
      List.mem_flatMap] at hs
    rcases hs with ⟨k, hkr, hsk⟩
    by_cases hkeep : keepDay p (start.day + (k : Int)) = true
    · rw [if_pos hkeep] at hsk
      have hsd := (daySlots_shape _ _ _ _ s hsk).1
      simp only [keepDay, h, Bool.not_false, Bool.true_and, Bool.not_eq_true',
        Bool.or_eq_false_iff, beq_eq_false_iff_ne, ne_eq] at hkeep
      rw [MomentDate.dow, hsd]
      exact ⟨hkeep.1, hkeep.2⟩
    · rw [if_neg hkeep] at hsk
      exact absurd hsk (List.not_mem_nil s)

/-- C7 witness. -/
theorem weekend_skip_ignores_preferredDays_witness :
    ({} : SchedPrefs).includeWeekends = false
    ∧ ((∀ pd : List Int,
        generateOptimalTimeSlots ⟨0, 0⟩ ⟨1, 0⟩ 30 []
          { ({} : SchedPrefs) with preferredDays := pd } =
        generateOptimalTimeSlots ⟨0, 0⟩ ⟨1, 0⟩ 30 [] {})
    ∧ ∀ s ∈ generateOptimalTimeSlots ⟨0, 0⟩ ⟨1, 0⟩ 30 [] ({} : SchedPrefs),
        s.startTime.dow ≠ 0 ∧ s.startTime.dow ≠ 6) :=
  ⟨rfl, weekend_skip_ignores_preferredDays ⟨0, 0⟩ ⟨1, 0⟩ 30 [] {} rfl⟩

/-- C7 (counterexample): day 2 is a Saturday; with `includeWeekends = false`
and `preferredDays = [6]` the claim says candidates are still generated for
that Saturday, but the generator yields nothing, while the same call with
`includeWeekends = true` yields a non-empty slot list for that day. -/
theorem preferredDays_weekend_exception_counterexample :
    (6 : Int) ∈ prefsSatPreferred.preferredDays
    ∧ prefsSatPreferred.includeWeekends = false
    ∧ dayDow 2 = 6
    ∧ generateOptimalTimeSlots ⟨2, 0⟩ ⟨3, 0⟩ 30 [] prefsSatPreferred = []
    ∧ generateOptimalTimeSlots ⟨2, 0⟩ ⟨3, 0⟩ 30 []
        { prefsSatPreferred with includeWeekends := true } ≠ [] := by
  refine ⟨by decide, rfl, by decide, ?_, ?_⟩
  · have hc : candidateSlots ⟨2, 0⟩ ⟨3, 0⟩ 30 [] prefsSatPreferred = [] := by
      decide
    rw [generateOptimalTimeSlots, hc]
    exact List.mergeSort_nil
  · intro hcon
    have h15 : (generateOptimalTimeSlots ⟨2, 0⟩ ⟨3, 0⟩ 30 []
        { prefsSatPreferred with includeWeekends := true }).length = 15 := by
      rw [generateOptimalTimeSlots, List.length_mergeSort]
      decide
    rw [hcon] at h15
    exact absurd h15 (by decide)

/-- A filtered list is non-empty exactly when some element satisfies the
predicate. -/
theorem filter_length_pos_iff {α : Type} (l : List α) (q : α → Bool) :
    0 < (l.filter q).length ↔ ∃ x ∈ l, q x = true := by
  rw [List.length_pos_iff_ne_nil]
  constructor
  · intro hn
    rcases List.exists_mem_of_ne_nil _ hn with ⟨x, hx⟩
    rw [List.mem_filter] at hx
    exact ⟨x, hx.1, hx.2⟩
  · rintro ⟨x, hx, hq⟩ hnil
    have hmem := List.mem_filter.mpr ⟨hx, hq⟩
    rw [hnil] at hmem
    exact absurd hmem (List.not_mem_nil x)

/-- Membership normal form of the strategy list. -/
theorem mem_strategies_iff (parts : List AvailabilityEntry)
    (analysis : List AnalyzedConflict) (dur : Int) (st : Strategy) :
    st ∈ generateResolutionStrategies parts analysis dur ↔
      st = rescheduleStrategy
      ∨ (parts.length > 3 ∧ st = reduceParticipantsStrategy)
      ∨ (dur > 60 ∧ st = splitMeetingStrategy)
      ∨ (0 < (analysis.filter (fun c => c.flexibility == "high")).length ∧
          st = overrideConflictsStrategy
            (analysis.filter (fun c => c.flexibility == "high")).length) := by
  by_cases h1 : parts.length > 3 <;> by_cases h2 : dur > 60 <;>
    by_cases h3 : (analysis.filter (fun c => c.flexibility == "high")).length > 0 <;>
    simp [generateResolutionStrategies, h1, h2, h3]

/-- C8 (amended): `reschedule` (effort low, impact high, probability 0.9) is
always proposed; `reduce_participants` (probability 0.7) iff the participant
count exceeds 3; `split_meeting` (probability 0.6) iff the duration exceeds
60; `override_conflicts` (effort medium, impact high, probability 0.8) iff
some conflicting event has flexibility `high`, which holds iff its category is
standup/check-in/update — a low-priority event of another category gets
flexibility `medium` and does NOT trigger `override_conflicts`. -/
theorem resolution_strategies_rule (parts : List AvailabilityEntry)
    (analysis : List AnalyzedConflict) (dur : Int) :
    (∃ st ∈ generateResolutionStrategies parts analysis dur,
        st.stype = "reschedule" ∧ st.effort = "low" ∧ st.impact = "high" ∧
        st.probability = 9 / 10)
    ∧ ((∃ st ∈ generateResolutionStrategies parts analysis dur,
        st.stype = "reduce_participants") ↔ parts.length > 3)
    ∧ ((∃ st ∈ generateResolutionStrategies parts analysis dur,
        st.stype = "split_meeting") ↔ dur > 60)
    ∧ ((∃ st ∈ generateResolutionStrategies parts analysis dur,
        st.stype = "override_conflicts") ↔
        ∃ c ∈ analysis, c.flexibility = "high")
    ∧ (∀ st ∈ generateResolutionStrategies parts analysis dur,
        st.stype = "reduce_participants" → st.probability = 7 / 10)
    ∧ (∀ st ∈ generateResolutionStrategies parts analysis dur,
        st.stype = "split_meeting" → st.probability = 6 / 10)
    ∧ (∀ st ∈ generateResolutionStrategies parts analysis dur,
        st.stype = "override_conflicts" →
          st.effort = "medium" ∧ st.impact = "high" ∧ st.probability = 8 / 10)
    ∧ (∀ m : Meeting, (analyzeConflict m).flexibility = "high" ↔
        m.mtype ∈ ["standup", "check-in", "update"]) := by
  have hflex : (0 < (analysis.filter (fun c => c.flexibility == "high")).length)
      ↔ ∃ c ∈ analysis, c.flexibility = "high" := by
    rw [filter_length_pos_iff]
    constructor
    · rintro ⟨c, hc, hq⟩
      exact ⟨c, hc, by simpa using hq⟩
    · rintro ⟨c, hc, hq⟩
      exact ⟨c, hc, by simpa using hq⟩
  refine ⟨?_, ?_, ?_, ?_, ?_, ?_, ?_, ?_⟩
  · exact ⟨rescheduleStrategy, (mem_strategies_iff parts analysis dur _).mpr
      (Or.inl rfl), rfl, rfl, rfl, rfl⟩
  · constructor
    · rintro ⟨st, hst, he⟩
      rcases (mem_strategies_iff parts analysis dur st).mp hst with
        rfl | ⟨hc, rfl⟩ | ⟨hc, rfl⟩ | ⟨hc, rfl⟩
      · exact absurd he (by decide)
      · exact hc
      · exact absurd he (by decide)
      · exact absurd he (by simp [overrideConflictsStrategy])
    · intro hc
      exact ⟨reduceParticipantsStrategy, (mem_strategies_iff parts analysis
        dur _).mpr (Or.inr (Or.inl ⟨hc, rfl⟩)), rfl⟩
  · constructor
    · rintro ⟨st, hst, he⟩
      rcases (mem_strategies_iff parts analysis dur st).mp hst with
        rfl | ⟨hc, rfl⟩ | ⟨hc, rfl⟩ | ⟨hc, rfl⟩
      · exact absurd he (by decide)
      · exact absurd he (by decide)
      · exact hc
      · exact absurd he (by simp [overrideConflictsStrategy])
    · intro hc
      exact ⟨splitMeetingStrategy, (mem_strategies_iff parts analysis
        dur _).mpr (Or.inr (Or.inr (Or.inl ⟨hc, rfl⟩))), rfl⟩
  · constructor
    · rintro ⟨st, hst, he⟩
      rcases (mem_strategies_iff parts analysis dur st).mp hst with
        rfl | ⟨hc, rfl⟩ | ⟨hc, rfl⟩ | ⟨hc, rfl⟩
      · exact absurd he (by decide)
      · exact absurd he (by decide)
      · exact absurd he (by decide)
      · exact hflex.mp hc
    · intro hc
      exact ⟨overrideConflictsStrategy
        (analysis.filter (fun c => c.flexibility == "high")).length,
        (mem_strategies_iff parts analysis dur _).mpr
          (Or.inr (Or.inr (Or.inr ⟨hflex.mpr hc, rfl⟩))), rfl⟩
  · intro st hst he
    rcases (mem_strategies_iff parts analysis dur st).mp hst with
      rfl | ⟨hc, rfl⟩ | ⟨hc, rfl⟩ | ⟨hc, rfl⟩
    · exact absurd he (by decide)
    · rfl
    · exact absurd he (by decide)
    · exact absurd he (by simp [overrideConflictsStrategy])
  · intro st hst he
    rcases (mem_strategies_iff parts analysis dur st).mp hst with
      rfl | ⟨hc, rfl⟩ | ⟨hc, rfl⟩ | ⟨hc, rfl⟩
    · exact absurd he (by decide)
    · exact absurd he (by decide)
    · rfl
    · exact absurd he (by simp [overrideConflictsStrategy])
  · intro st hst he
    rcases (mem_strategies_iff parts analysis dur st).mp hst with
      rfl | ⟨hc, rfl⟩ | ⟨hc, rfl⟩ | ⟨hc, rfl⟩
    · exact absurd he (by decide)
    · exact absurd he (by decide)
    · exact absurd he (by decide)
    · exact ⟨rfl, rfl, rfl⟩
  · intro m
    simp only [analyzeConflict, flexibilityOf]
    by_cases hm : ["standup", "check-in", "update"].contains m.mtype = true
    · rw [if_pos hm]
      simp only [List.contains, List.elem_eq_mem, decide_eq_true_eq] at hm
      exact iff_of_true rfl hm
    · rw [if_neg hm]
      refine iff_of_false ?_ ?_
      · split_ifs <;> decide
      · intro hmem
        exact hm (by simp [List.contains, List.elem_eq_mem, hmem])

/-- C8 (counterexample): a single conflicting event of category `meeting` with
stated priority `low` is flexible by the claim's definition, yet its computed
flexibility is `medium`, so `override_conflicts` is NOT proposed (for a
90-minute request with 5 participants the proposed strategies are exactly
reschedule, reduce_participants, split_meeting). -/
theorem override_low_priority_counterexample :
    lowPriorityConflict.priority = "low"
    ∧ (analyzeConflict lowPriorityConflict).flexibility = "medium"
    ∧ fiveEntries.length > 3
    ∧ (generateResolutionStrategies fiveEntries
        [analyzeConflict lowPriorityConflict] 90).map Strategy.stype =
      ["reschedule", "reduce_participants", "split_meeting"] := by
  refine ⟨rfl, rfl, by decide, by decide⟩

/-- C10 (counterexample): on the score list `[50, 50]` (already sorted, so the
first score is the maximum), the claim's formula
`round((avg/100) * (max/100) * 100)` gives 25, but the AI-insights service's
`calculateSuggestionConfidence` returns 50. -/
theorem suggestion_confidence_counterexample :
    calculateSuggestionConfidence [50, 50] = 50
    ∧ jsRound ((50 : ℚ) / 100 * ((50 : ℚ) / 100) * 100) = 25
    ∧ calculateSuggestionConfidence [50, 50] ≠
        jsRound ((50 : ℚ) / 100 * ((50 : ℚ) / 100) * 100) := by
  have ha : calculateSuggestionConfidence [50, 50] = 50 := by
    rw [calculateSuggestionConfidence]
    norm_num [jsRound]
  have hb : jsRound ((50 : ℚ) / 100 * ((50 : ℚ) / 100) * 100) = 25 := by
    norm_num [jsRound]
  refine ⟨ha, hb, ?_⟩
  rw [ha, hb]
  decide

/-- C10 (amended): `calculateConfidenceScore` of smartCalendarService does
compute `round((avg/100) * (max/100) * 100)` (equivalently
`round(sum * max / (100 * length))`) for every non-empty list, but
`calculateSuggestionConfidence` of the AI-insights service computes
`round((top/100) * (1 - (top - avg)/top) * 100)`, which equals
`round(avg)` whenever the first score is nonzero. -/
theorem confidence_formulas (suggestions : List Slot) (l : List Int)
    (h1 : suggestions ≠ []) (h2 : l ≠ []) (h3 : l.headD 0 ≠ 0) :
    calculateConfidenceScore suggestions =
      jsRound ((((suggestions.map Slot.score).sum : ℚ) *
        (((suggestions.map Slot.score).max?).getD 0 : ℚ)) /
        (100 * (suggestions.map Slot.score).length))
    ∧ calculateSuggestionConfidence l = jsRound ((l.sum : ℚ) / l.length) := by
  constructor
  · have hl : suggestions.length ≠ 0 := fun hh => h1 (List.length_eq_zero.mp hh)
    rw [calculateConfidenceScore, if_neg hl]
    have hlq : ((suggestions.map Slot.score).length : ℚ) ≠ 0 := by
      rw [List.length_map]
      exact_mod_cast hl
    field_simp
    ring
  · have hl : l.length ≠ 0 := fun hh => h2 (List.length_eq_zero.mp hh)
    have ht : ((l.headD 0 : Int) : ℚ) ≠ 0 := Int.cast_ne_zero.mpr h3
    have hlq : ((l.length : Nat) : ℚ) ≠ 0 := by exact_mod_cast hl
    have harg : ((l.headD 0 : Int) : ℚ) / 100 *
        (1 - (((l.headD 0 : Int) : ℚ) - (l.sum : ℚ) / (l.length : ℚ)) /
          ((l.headD 0 : Int) : ℚ)) * 100 = (l.sum : ℚ) / (l.length : ℚ) := by
      set a : ℚ := ((l.headD 0 : Int) : ℚ) with ha
      set s : ℚ := (l.sum : ℚ) with hsm
      set n : ℚ := ((l.length : Nat) : ℚ) with hn
      field_simp
      ring
    simp only [calculateSuggestionConfidence]
    rw [if_neg hl, harg]

/-- C10 witness. -/
theorem confidence_formulas_witness :
    ([sampleSlot] ≠ [])
    ∧ (([50, 50] : List Int) ≠ [])
    ∧ (([50, 50] : List Int).headD 0 ≠ 0)
    ∧ (calculateConfidenceScore [sampleSlot] =
        jsRound (((([sampleSlot].map Slot.score).sum : ℚ) *
          ((([sampleSlot].map Slot.score).max?).getD 0 : ℚ)) /
          (100 * ([sampleSlot].map Slot.score).length))
    ∧ calculateSuggestionConfidence [50, 50] =
        jsRound ((([50, 50] : List Int).sum : ℚ) / ([50, 50] : List Int).length)) :=
  ⟨by decide, by decide, by decide,
    confidence_formulas [sampleSlot] [50, 50] (by decide) (by decide)
      (by decide)⟩

end MeetingScheduler
